import Mathlib

/-!
Shallow embedding of the pyrmapi native client (src/pyrmapi/native/models.py,
auth.py, cloud.py) and verification of the frozen claims about it.

Machine strings are Lean `String`s; Python `int` is `Int`; Python `dict`
built by `{item.id: item for item in items}` is represented by the item list
itself with lookup `cacheGet` (last binding wins, as in a Python dict
comprehension).  Network interaction is modelled by explicit environments
holding the responses each endpoint would give (`none` standing for a
network-level `httpx.HTTPError`), and every operation returns, next to its
`Except` result and the updated client state, the ordered list of HTTP
requests it issued.
-/

namespace Pyrmapi

/-- Model of `ItemType` from models.py: DocumentType / CollectionType. -/
inductive ItemType where
  | document
  | collection
deriving DecidableEq, Repr

/-- Model of `CloudItem` from models.py (fields relevant to the client logic). -/
structure CloudItem where
  id : String
  version : Int
  message : String
  success : Bool
  blobUrlGet : String
  modifiedClient : String
  itemType : ItemType
  visibleName : String
  currentPage : Int
  bookmarked : Bool
  parent : String
deriving DecidableEq, Repr

/-- Model of `UploadRequestItem` from models.py. -/
structure UploadRequestItem where
  id : String
  version : Int
  itemType : ItemType
deriving DecidableEq, Repr

/-- Model of `UploadRequestResponse` from models.py. -/
structure UploadRequestResponse where
  id : String
  version : Int
  message : String
  success : Bool
  blobUrlPut : String
deriving DecidableEq, Repr

/-- Model of `UpdateStatusItem` from models.py: the metadata payload submitted by
create_folder / upload_document / move_item.  `modifiedClient` is the
caller-supplied timestamp (`now_timestamp()` in the source, an environment
input here). -/
structure UpdateStatusItem where
  id : String
  version : Int
  parent : String
  visibleName : String
  itemType : ItemType
  modifiedClient : String
  bookmarked : Bool
deriving DecidableEq, Repr

/-- Model of `DeleteItem` from models.py. -/
structure DeleteItem where
  id : String
  version : Int
deriving DecidableEq, Repr

/-- Model of `ServiceDiscoveryResponse` from models.py ({Status, Host}). -/
structure ServiceDiscoveryResponse where
  status : String
  host : String
deriving DecidableEq, Repr

/-- Model of `AuthTokens` from models.py (devicetoken / usertoken). -/
structure AuthTokens where
  deviceToken : String
  userToken : String
deriving DecidableEq, Repr

/-- Model of `ROOT_FOLDER` from cloud.py: the empty string denotes the root. -/
def ROOT_FOLDER : String := ""

/-- Model of `DEFAULT_STORAGE_HOST` from cloud.py. -/
def DEFAULT_STORAGE_HOST : String :=
  "document-storage-production-dot-remarkable-production.appspot.com"

/-! ### Path resolution (cloud.py, find_item_by_path / get_item_path)

Both functions operate on the item set obtained from a listing:
`find_item_by_path` begins with `items = self.list_items()` (which also
rewrites the cache to exactly these items keyed by id), and `get_item_path`
reads that cache.  The functions below take this common item list as a
parameter. -/

/-- Lookup in the Python dict `{item.id: item for item in items}`:
the last item with the given id wins. -/
def cacheGet (items : List CloudItem) (key : String) : Option CloudItem :=
  items.reverse.find? (fun it => it.id == key)

/-- Python `text.strip()`: remove leading and trailing whitespace. -/
def stripWs (s : String) : String :=
  String.mk
    (((s.data.dropWhile Char.isWhitespace).reverse.dropWhile Char.isWhitespace).reverse)

/-- Python `path.strip("/")`: remove every leading and trailing slash. -/
def stripSlashes (s : String) : String :=
  String.mk (((s.data.dropWhile (· == '/')).reverse.dropWhile (· == '/')).reverse)

/-- Python `path.split("/")`. -/
def splitSlashes (s : String) : List String :=
  (s.data.splitOn '/').map String.mk

/-- Python `"/".join(parts)`. -/
def joinSlashes (parts : List String) : String :=
  String.mk (List.intercalate ['/'] (parts.map String.data))

/-- The bucket `items_by_parent.get(pid, [])` built in `find_item_by_path`:
the items whose parent is `pid`, in listing order (`item.parent or
ROOT_FOLDER` equals `item.parent`, since an empty parent is already the
root marker). -/
def childrenOf (items : List CloudItem) (pid : String) : List CloudItem :=
  items.filter (fun it => it.parent == pid)

/-- The segment-walking loop of `find_item_by_path`: for each path part,
take the first child of the current parent whose visible name matches;
abort with `none` when a segment has no match. -/
def walkPath (items : List CloudItem) :
    List String → String → Option CloudItem → Option CloudItem
  | [], _, cur => cur
  | part :: rest, pid, _ =>
    match (childrenOf items pid).find? (fun c => c.visibleName == part) with
    | none => none
    | some found => walkPath items rest found.id (some found)

/-- Model of `CloudClient.find_item_by_path`, as a function of the freshly listed
item set: normalize slashes, treat the empty path as "no item", then walk
the segments from the root. -/
def findItemByPath (items : List CloudItem) (path : String) : Option CloudItem :=
  let p := stripSlashes path
  if p = "" then none
  else walkPath items (splitSlashes p) ROOT_FOLDER none

/-- The ancestor-walking loop of `get_item_path`.  The source's `while`
loop has no fuel; on the acyclic inputs the claims quantify over, any fuel
of at least the ancestor-chain length computes the same result, and
`getItemPath` supplies `items.length`.  The loop condition
`current.parent and self._items_cache` requires both a non-empty parent and
a non-empty cache dict. -/
def getPathLoop (items : List CloudItem) :
    Nat → CloudItem → List String → List String
  | 0, _, parts => parts
  | fuel + 1, cur, parts =>
    if cur.parent ≠ "" ∧ items ≠ [] then
      match cacheGet items cur.parent with
      | none => parts
      | some p => getPathLoop items fuel p (p.visibleName :: parts)
    else parts

/-- Model of `CloudClient.get_item_path`, as a function of the cached item set:
collect ancestor names front-first and join them under a leading slash. -/
def getItemPath (items : List CloudItem) (item : CloudItem) : String :=
  "/" ++ joinSlashes (getPathLoop items items.length item [item.visibleName])

/-- The full upward parent chain of an item, closest ancestor last in the
derivation but listed root-first: `AncChain items x c` says the repeated
cache lookups from `x` reach an item with an empty parent, and `c` lists
the proper ancestors of `x` from the root down to its immediate parent. -/
inductive AncChain (items : List CloudItem) : CloudItem → List CloudItem → Prop where
  | root (x : CloudItem) (h : x.parent = "") : AncChain items x []
  | step (x p : CloudItem) (c : List CloudItem) (hne : x.parent ≠ "")
      (hp : cacheGet items x.parent = some p) (hc : AncChain items p c) :
      AncChain items x (c ++ [p])

/-! ### Errors, requests, environments and client state

Each Python method that talks to the network is modelled as a function
`Env → State → Except Err α × State × List Request`: the result (an
exception or a value), the updated mutable state, and the ordered HTTP
requests the call issued.  A response field of `none` in an environment
stands for a network-level `httpx.HTTPError`. -/

/-- The exception taxonomy of auth.py and cloud.py. -/
inductive Err where
  | authErr
  | refreshErr
  | configErr
  | discoveryErr
  | listErr
  | itemNotFound
  | createErr
  | uploadErr
  | moveErr
  | deleteErr
  | fileNotFound
deriving DecidableEq, Repr

/-- The HTTP requests the modelled operations can issue, with the payloads
the claims talk about. -/
inductive Request where
  | discovery
  | tokenRefresh
  | listDocs (withBlob : Bool) (docId : Option String)
  | uploadRequest (payload : UploadRequestItem)
  | blobPut
  | updateStatus (payload : UpdateStatusItem)
  | deleteRequest (payload : DeleteItem)
deriving DecidableEq, Repr

/-- Mutable state of `AuthClient`: the in-memory tokens and the parsed
content of the on-disk credential file (`none` = file absent or empty). -/
structure AuthState where
  tokens : Option AuthTokens
  disk : Option AuthTokens
deriving DecidableEq, Repr

/-- Network environment of `AuthClient`: the response of the user-token
endpoint as (status, body text), `none` for a network error. -/
structure AuthEnv where
  refreshResp : Option (Int × String)
deriving DecidableEq, Repr

/-- Model of `AuthClient.load_tokens`, restricted to well-formed files: reads the
disk; a missing/empty file yields `none` and leaves the in-memory tokens
alone. -/
def loadTokens (s : AuthState) : Option AuthTokens × AuthState :=
  match s.disk with
  | none => (none, s)
  | some t => (some t, { s with tokens := some t })

/-- Model of `AuthClient.save_tokens` (with the default `tokens=None`, i.e. saving
the current in-memory tokens): overwrites the disk file. -/
def saveTokens (s : AuthState) : Except Err Unit × AuthState :=
  match s.tokens with
  | none => (.error .configErr, s)
  | some t => (.ok (), { s with disk := some t })

/-- Model of `AuthClient.refresh_user_token`: needs a device token, POSTs to the
user-token endpoint, and on a 200 response with a non-blank body installs
the new user token in memory.  It does not touch the disk. -/
def refreshUserToken (env : AuthEnv) (s : AuthState) :
    Except Err String × AuthState × List Request :=
  match s.tokens with
  | none => (.error .authErr, s, [])
  | some t =>
    if t.deviceToken = "" then (.error .authErr, s, [])
    else
      match env.refreshResp with
      | none => (.error .refreshErr, s, [.tokenRefresh])
      | some (status, body) =>
        if status ≠ 200 then (.error .refreshErr, s, [.tokenRefresh])
        else if stripWs body = "" then (.error .refreshErr, s, [.tokenRefresh])
        else (.ok (stripWs body),
              { s with tokens := some ⟨t.deviceToken, stripWs body⟩ },
              [.tokenRefresh])

/-- The phase of `ensure_authenticated` after the initial token load: fail
if no tokens are held, otherwise refresh the user token, persist, and
return the held tokens. -/
def ensureAuthenticatedCore (env : AuthEnv) (s1 : AuthState) :
    Except Err AuthTokens × AuthState × List Request :=
  match s1.tokens with
  | none => (.error .authErr, s1, [])
  | some _ =>
    match refreshUserToken env s1 with
    | (.error e, s2, reqs) => (.error e, s2, reqs)
    | (.ok _, s2, reqs) =>
      match saveTokens s2 with
      | (.error e, s3) => (.error e, s3, reqs)
      | (.ok _, s3) =>
        match s3.tokens with
        | none => (.error .authErr, s3, reqs)
        | some t => (.ok t, s3, reqs)

/-- Model of `AuthClient.ensure_authenticated`: load persisted tokens when none are
held, fail if still absent, otherwise unconditionally refresh the user
token and persist the result. -/
def ensureAuthenticated (env : AuthEnv) (s : AuthState) :
    Except Err AuthTokens × AuthState × List Request :=
  ensureAuthenticatedCore env (if s.tokens.isNone then (loadTokens s).2 else s)

/-- Model of `CloudClient.discover_storage_host` as a function of the discovery
response: `none` = network error, otherwise (HTTP status, parse result)
where a parse result of `none` stands for a body that fails JSON decoding
or model validation. -/
def discoverStorageHost (resp : Option (Int × Option ServiceDiscoveryResponse)) :
    Except Err String :=
  match resp with
  | none => .ok DEFAULT_STORAGE_HOST
  | some (status, parsed) =>
    if status ≠ 200 then .ok DEFAULT_STORAGE_HOST
    else
      match parsed with
      | none => .error .discoveryErr
      | some d => if d.status ≠ "OK" then .ok DEFAULT_STORAGE_HOST else .ok d.host

/-- Mutable state of `CloudClient`: the auth client's state, the cached
storage host and the item cache.  The Python cache dict
`{item.id: item}` is represented by its insertion list (`cacheGet` gives
the dict's lookup). -/
structure CloudState where
  auth : AuthState
  storageHost : Option String
  itemsCache : Option (List CloudItem)
deriving DecidableEq, Repr

/-- Network environment of `CloudClient`: one response per endpoint, plus
the filesystem facts and nondeterministic inputs (fresh UUID, wall-clock
timestamp) an operation reads. -/
structure CloudEnv where
  authEnv : AuthEnv
  discoveryResp : Option (Int × Option ServiceDiscoveryResponse)
  listResp : Option (Int × List CloudItem)
  getResp : Option (Int × List CloudItem)
  uploadResp : Option (Int × List UploadRequestResponse)
  blobPutStatus : Option Int
  updateResp : Option (Int × List CloudItem)
  deleteResp : Option (Int × List (Bool × String))
  fileExists : Bool
  newId : String
  now : String
deriving Repr

/-- The `storage_host` property (and the async `if self._storage_host is
None` prologue): return the cached host or discover and cache it. -/
def storageHostStep (env : CloudEnv) (s : CloudState) :
    Except Err String × CloudState × List Request :=
  match s.storageHost with
  | some h => (.ok h, s, [])
  | none =>
    match discoverStorageHost env.discoveryResp with
    | .error e => (.error e, s, [.discovery])
    | .ok h => (.ok h, { s with storageHost := some h }, [.discovery])

/-- Model of `CloudClient._get_auth_headers`: run `ensure_authenticated` and return
the bearer token placed in the Authorization header. -/
def getAuthHeaders (env : AuthEnv) (s : CloudState) :
    Except Err String × CloudState × List Request :=
  match ensureAuthenticated env s.auth with
  | (.error e, a, reqs) => (.error e, { s with auth := a }, reqs)
  | (.ok t, a, reqs) => (.ok t.userToken, { s with auth := a }, reqs)

/-- The shared prologue of every storage operation: resolve the storage
host (`_get_storage_url`) and then obtain the auth header
(`_get_auth_headers`), in that evaluation order, concatenating their
request traces. -/
def hostAuthStep (env : CloudEnv) (s : CloudState) :
    Except Err (String × String) × CloudState × List Request :=
  match storageHostStep env s with
  | (.error e, s1, r1) => (.error e, s1, r1)
  | (.ok h, s1, r1) =>
    match getAuthHeaders env.authEnv s1 with
    | (.error e, s2, r2) => (.error e, s2, r1 ++ r2)
    | (.ok tok, s2, r2) => (.ok (h, tok), s2, r1 ++ r2)

/-- Model of `CloudClient.list_items`.  The `refresh` argument is accepted but never
read by the source; an empty response body yields `[]` without touching the
cache, a non-empty one replaces the whole cache. -/
def listItems (env : CloudEnv) (withBlob : Bool) (refresh : Bool) (s : CloudState) :
    Except Err (List CloudItem) × CloudState × List Request :=
  match hostAuthStep env s with
  | (.error e, s2, r12) => (.error e, s2, r12)
  | (.ok _, s2, r12) =>
    let tr := r12 ++ [.listDocs withBlob none]
    match env.listResp with
    | none => (.error .listErr, s2, tr)
    | some (status, items) =>
      if status ≠ 200 then (.error .listErr, s2, tr)
      else if items = [] then (.ok [], s2, tr)
      else (.ok items, { s2 with itemsCache := some items }, tr)

/-- Model of `CloudClient.get_item`: GET with `?doc=<id>`; 404 and an empty result
array give `ItemNotFoundError`, any other non-200 a `ListItemsError`. -/
def getItem (env : CloudEnv) (itemId : String) (withBlob : Bool) (s : CloudState) :
    Except Err CloudItem × CloudState × List Request :=
  match hostAuthStep env s with
  | (.error e, s2, r12) => (.error e, s2, r12)
  | (.ok _, s2, r12) =>
    let tr := r12 ++ [.listDocs withBlob (some itemId)]
    match env.getResp with
    | none => (.error .listErr, s2, tr)
    | some (status, data) =>
      if status = 404 then (.error .itemNotFound, s2, tr)
      else if status ≠ 200 then (.error .listErr, s2, tr)
      else
        match data with
        | [] => (.error .itemNotFound, s2, tr)
        | it :: _ => (.ok it, s2, tr)

/-- Model of `CloudClient.find_item_by_path` at the operation level: refresh the
listing, then resolve with the pure `findItemByPath`. -/
def findItemByPathOp (env : CloudEnv) (path : String) (s : CloudState) :
    Except Err (Option CloudItem) × CloudState × List Request :=
  match listItems env false false s with
  | (.error e, s1, r) => (.error e, s1, r)
  | (.ok items, s1, r) => (.ok (findItemByPath items path), s1, r)

/-- Model of `CloudClient.create_folder`: reserve a fresh id as a COLLECTION at
version 1, then submit metadata; the cache is set to `None` just before the
successful return. -/
def createFolder (env : CloudEnv) (name : String) (parentId : String) (s : CloudState) :
    Except Err CloudItem × CloudState × List Request :=
  let req : UploadRequestItem := ⟨env.newId, 1, .collection⟩
  match hostAuthStep env s with
  | (.error e, s2, r12) => (.error e, s2, r12)
  | (.ok _, s2, r12) =>
      let tr := r12 ++ [.uploadRequest req]
      match env.uploadResp with
      | none => (.error .createErr, s2, tr)
      | some (status, rs) =>
        if status ≠ 200 then (.error .createErr, s2, tr)
        else
          match rs with
          | [] => (.error .createErr, s2, tr)
          | r0 :: _ =>
            if ¬ r0.success then (.error .createErr, s2, tr)
            else
              let upd : UpdateStatusItem :=
                ⟨env.newId, 1, parentId, name, .collection, env.now, false⟩
              match getAuthHeaders env.authEnv s2 with
              | (.error e, s3, r3) => (.error e, s3, tr ++ r3)
              | (.ok _, s3, r3) =>
                let tr2 := tr ++ r3 ++ [.updateStatus upd]
                match env.updateResp with
                | none => (.error .createErr, s3, tr2)
                | some (st2, us) =>
                  if st2 ≠ 200 then (.error .createErr, s3, tr2)
                  else
                    match us with
                    | [] => (.error .createErr, s3, tr2)
                    | u0 :: _ => (.ok u0, { s3 with itemsCache := none }, tr2)

/-- Python `pathlib.Path(p).stem` for ordinary file names: the component
after the last slash, without its last extension (a leading dot alone is
not an extension). -/
def pathStem (p : String) : String :=
  let base := (p.data.splitOn '/').getLastD []
  match base.reverse.dropWhile (· ≠ '.') with
  | [] => String.mk base
  | _ :: rest => if rest = [] then String.mk base else String.mk rest.reverse

/-- Model of `CloudClient.upload_document` (blocking mode): the file-existence check
comes first, before any network interaction; then upload-slot reservation,
blob PUT, and metadata submission follow, each `_get_auth_headers` call
performing its own session refresh. -/
def uploadDocument (env : CloudEnv) (filePath : String) (name : Option String)
    (parentId : String) (s : CloudState) :
    Except Err CloudItem × CloudState × List Request :=
  if ¬ env.fileExists then (.error .fileNotFound, s, [])
  else
    let nm := name.getD (pathStem filePath)
    let req : UploadRequestItem := ⟨env.newId, 1, .document⟩
    match hostAuthStep env s with
    | (.error e, s2, r12) => (.error e, s2, r12)
    | (.ok _, s2, r12) =>
        let tr := r12 ++ [.uploadRequest req]
        match env.uploadResp with
        | none => (.error .uploadErr, s2, tr)
        | some (status, rs) =>
          if status ≠ 200 then (.error .uploadErr, s2, tr)
          else
            match rs with
            | [] => (.error .uploadErr, s2, tr)
            | r0 :: _ =>
              if ¬ r0.success then (.error .uploadErr, s2, tr)
              else if r0.blobUrlPut = "" then (.error .uploadErr, s2, tr)
              else
                match env.blobPutStatus with
                | none => (.error .uploadErr, s2, tr ++ [.blobPut])
                | some bst =>
                  if bst ≠ 200 ∧ bst ≠ 201 then (.error .uploadErr, s2, tr ++ [.blobPut])
                  else
                    let upd : UpdateStatusItem :=
                      ⟨env.newId, 1, parentId, nm, .document, env.now, false⟩
                    match getAuthHeaders env.authEnv s2 with
                    | (.error e, s3, r3) => (.error e, s3, tr ++ [.blobPut] ++ r3)
                    | (.ok _, s3, r3) =>
                      let tr2 := tr ++ [.blobPut] ++ r3 ++ [.updateStatus upd]
                      match env.updateResp with
                      | none => (.error .uploadErr, s3, tr2)
                      | some (st2, us) =>
                        if st2 ≠ 200 then (.error .uploadErr, s3, tr2)
                        else
                          match us with
                          | [] => (.error .uploadErr, s3, tr2)
                          | u0 :: _ => (.ok u0, { s3 with itemsCache := none }, tr2)

/-- Model of `CloudClient.upload_document_async` (non-blocking mode): the source
resolves the storage host and runs `ensure_authenticated_async` before the
file-existence check, and computes the auth header once, reusing it for the
metadata submission. -/
def uploadDocumentAsync (env : CloudEnv) (filePath : String) (name : Option String)
    (parentId : String) (s : CloudState) :
    Except Err CloudItem × CloudState × List Request :=
  match hostAuthStep env s with
  | (.error e, s2, r12) => (.error e, s2, r12)
  | (.ok _, s2, r12) =>
      if ¬ env.fileExists then (.error .fileNotFound, s2, r12)
      else
        let nm := name.getD (pathStem filePath)
        let req : UploadRequestItem := ⟨env.newId, 1, .document⟩
        let tr := r12 ++ [.uploadRequest req]
        match env.uploadResp with
        | none => (.error .uploadErr, s2, tr)
        | some (status, rs) =>
          if status ≠ 200 then (.error .uploadErr, s2, tr)
          else
            match rs with
            | [] => (.error .uploadErr, s2, tr)
            | r0 :: _ =>
              if ¬ r0.success then (.error .uploadErr, s2, tr)
              else if r0.blobUrlPut = "" then (.error .uploadErr, s2, tr)
              else
                match env.blobPutStatus with
                | none => (.error .uploadErr, s2, tr ++ [.blobPut])
                | some bst =>
                  if bst ≠ 200 ∧ bst ≠ 201 then (.error .uploadErr, s2, tr ++ [.blobPut])
                  else
                    let upd : UpdateStatusItem :=
                      ⟨env.newId, 1, parentId, nm, .document, env.now, false⟩
                    let tr2 := tr ++ [.blobPut] ++ [.updateStatus upd]
                    match env.updateResp with
                    | none => (.error .uploadErr, s2, tr2)
                    | some (st2, us) =>
                      if st2 ≠ 200 then (.error .uploadErr, s2, tr2)
                      else
                        match us with
                        | [] => (.error .uploadErr, s2, tr2)
                        | u0 :: _ => (.ok u0, { s2 with itemsCache := none }, tr2)

/-- Model of `CloudClient.move_item`: fetch the item's current state, then submit an
`UpdateStatusItem` with `version + 1`, the requested parent, the supplied
name (falling back to the current one) and the current bookmarked flag. -/
def moveItem (env : CloudEnv) (itemId : String) (newParentId : String)
    (newName : Option String) (s : CloudState) :
    Except Err CloudItem × CloudState × List Request :=
  match getItem env itemId false s with
  | (.error e, s1, r1) => (.error e, s1, r1)
  | (.ok item, s1, r1) =>
    let nm := newName.getD item.visibleName
    let upd : UpdateStatusItem :=
      ⟨itemId, item.version + 1, newParentId, nm, item.itemType, env.now, item.bookmarked⟩
    match hostAuthStep env s1 with
    | (.error e, s3, r23) => (.error e, s3, r1 ++ r23)
    | (.ok _, s3, r23) =>
        let tr := r1 ++ r23 ++ [.updateStatus upd]
        match env.updateResp with
        | none => (.error .moveErr, s3, tr)
        | some (status, us) =>
          if status ≠ 200 then (.error .moveErr, s3, tr)
          else
            match us with
            | [] => (.error .moveErr, s3, tr)
            | u0 :: _ =>
              if ¬ u0.success then (.error .moveErr, s3, tr)
              else (.ok u0, { s3 with itemsCache := none }, tr)

/-- A `move_item` call that leaves `new_parent_id` and `new_name` at their
Python defaults (`ROOT_FOLDER` and `None`). -/
def moveItemDefault (env : CloudEnv) (itemId : String) (s : CloudState) :
    Except Err CloudItem × CloudState × List Request :=
  moveItem env itemId ROOT_FOLDER none s

/-- Model of `CloudClient.rename_item`: fetch the item and move it with its current
parent passed explicitly and the new name supplied. -/
def renameItem (env : CloudEnv) (itemId : String) (newName : String) (s : CloudState) :
    Except Err CloudItem × CloudState × List Request :=
  match getItem env itemId false s with
  | (.error e, s1, r1) => (.error e, s1, r1)
  | (.ok item, s1, r1) =>
    match moveItem env itemId item.parent (some newName) s1 with
    | (res, s2, r2) => (res, s2, r1 ++ r2)

/-- Model of `CloudClient.delete_item`: fetch the item for its current version, then
submit a delete request keyed by (id, version). -/
def deleteItem (env : CloudEnv) (itemId : String) (s : CloudState) :
    Except Err Bool × CloudState × List Request :=
  match getItem env itemId false s with
  | (.error e, s1, r1) => (.error e, s1, r1)
  | (.ok item, s1, r1) =>
    let del : DeleteItem := ⟨itemId, item.version⟩
    match hostAuthStep env s1 with
    | (.error e, s3, r23) => (.error e, s3, r1 ++ r23)
    | (.ok _, s3, r23) =>
        let tr := r1 ++ r23 ++ [.deleteRequest del]
        match env.deleteResp with
        | none => (.error .deleteErr, s3, tr)
        | some (status, ds) =>
          if status ≠ 200 then (.error .deleteErr, s3, tr)
          else
            match ds with
            | [] => (.error .deleteErr, s3, tr)
            | (ok0, _) :: _ =>
              if ¬ ok0 then (.error .deleteErr, s3, tr)
              else (.ok true, { s3 with itemsCache := none }, tr)

/-! ### Credential-file location (auth.py, _get_default_config_path) -/

/-- Model of `DEFAULT_CONFIG_NAME` from auth.py. -/
def DEFAULT_CONFIG_NAME : String := ".rmapi"

/-- Model of `XDG_CONFIG_NAME` from auth.py. -/
def XDG_CONFIG_NAME : String := "rmapi/rmapi.conf"

/-- The process environment and filesystem facts `_get_default_config_path`
reads: the two environment variables (`none` = unset), the home directory,
and which paths exist.  `Path / name` is modelled as slash concatenation
and `expanduser` as the identity. -/
structure PathEnv where
  rmapiConfigVar : Option String
  xdgConfigHomeVar : Option String
  home : String
  pathExists : String → Bool

/-- The `home_config` candidate of `_get_default_config_path`:
`Path.home() / DEFAULT_CONFIG_NAME`. -/
def homeConfigPath (e : PathEnv) : String :=
  e.home ++ "/" ++ DEFAULT_CONFIG_NAME

/-- The `xdg_config` candidate of `_get_default_config_path`: under a set,
non-empty `XDG_CONFIG_HOME`, or under `~/.config` otherwise. -/
def xdgConfigPath (e : PathEnv) : String :=
  let xdgHome := e.xdgConfigHomeVar.getD ""
  if xdgHome ≠ "" then xdgHome ++ "/" ++ XDG_CONFIG_NAME
  else e.home ++ "/.config/" ++ XDG_CONFIG_NAME

/-- Model of `_get_default_config_path`: an RMAPI_CONFIG value that is set and
non-empty is returned unconditionally (no existence check); otherwise the
home-directory file if it exists, then the XDG file if it exists, then the
home-directory file as the write target. -/
def getDefaultConfigPath (e : PathEnv) : String :=
  let envConfig := e.rmapiConfigVar.getD ""
  if envConfig ≠ "" then envConfig
  else if e.pathExists (homeConfigPath e) then homeConfigPath e
  else if e.pathExists (xdgConfigPath e) then xdgConfigPath e
  else homeConfigPath e

/-! ### Concrete fixtures for counterexamples and witnesses -/

/-- A loaded credential pair. -/
def authTokFix : AuthTokens := ⟨"device-1", "user-old"⟩

/-- Auth state with the pair both in memory and on disk. -/
def authStateFix : AuthState := ⟨some authTokFix, some authTokFix⟩

/-- Auth environment whose user-token endpoint answers 200 "user-new". -/
def authEnvFix : AuthEnv := ⟨some (200, "user-new")⟩

/-- A sample root-level document. -/
def itemA : CloudItem :=
  ⟨"id-A", 1, "", true, "", "", .document, "Doc A", 0, false, ""⟩

/-- A sample document at version 3 inside folder "F", bookmarked. -/
def itemB : CloudItem :=
  ⟨"id-B", 3, "", true, "", "", .document, "Doc B", 0, true, "F"⟩

/-- The backend's successful answer to a metadata update for `itemB`. -/
def itemBMoved : CloudItem :=
  ⟨"id-B", 4, "", true, "", "", .document, "Doc B", 0, true, ""⟩

/-- A cloud environment where every endpoint fails at network level. -/
def baseEnv : CloudEnv :=
  { authEnv := authEnvFix, discoveryResp := none, listResp := none,
    getResp := none, uploadResp := none, blobPutStatus := none,
    updateResp := none, deleteResp := none, fileExists := true,
    newId := "new-id", now := "2026-01-01T00:00:00.000Z" }

/-- Client state with a cached host and no item cache. -/
def cloudStateFix : CloudState := ⟨authStateFix, some "host.example", none⟩

/-- Client state with a cached host and a populated item cache. -/
def cloudStateCachedFix : CloudState :=
  ⟨authStateFix, some "host.example", some [itemA]⟩

/-- Client state of a freshly created client: no host, no cache. -/
def cloudStateFreshFix : CloudState := ⟨authStateFix, none, none⟩

/-- Environment whose listing endpoint answers 200 with an empty set. -/
def envEmptyList : CloudEnv := { baseEnv with listResp := some (200, []) }

/-- Environment whose listing endpoint answers 200 with one item. -/
def envOneItemList : CloudEnv := { baseEnv with listResp := some (200, [itemA]) }

/-- Environment for an upload of a missing file on a fresh client:
discovery succeeds, the session refresh succeeds, the file is absent. -/
def envMissingFile : CloudEnv :=
  { baseEnv with fileExists := false, discoveryResp := some (200, some ⟨"OK", "disc.example"⟩) }

/-- Environment where the upload-slot reservation fails with HTTP 500. -/
def envCreateFail : CloudEnv := { baseEnv with uploadResp := some (500, []) }

/-- Environment where fetching `itemB` and updating its metadata succeed. -/
def envMoveOk : CloudEnv :=
  { baseEnv with getResp := some (200, [itemB]), updateResp := some (200, [itemBMoved]) }

/-- Environment where fetching `itemB` and deleting it succeed. -/
def envDeleteOk : CloudEnv :=
  { baseEnv with getResp := some (200, [itemB]), deleteResp := some (200, [(true, "")]) }

/-- A root-level item whose display name is the empty string: the input on
which the path round-trip of claim C2 fails. -/
def itemEmptyName : CloudItem :=
  ⟨"id-E", 1, "", true, "", "", .document, "", 0, false, ""⟩

/-- A root folder "Folder" with a child document "Doc" (the spec's own
two-item scenario). -/
def itemF : CloudItem :=
  ⟨"F", 1, "", true, "", "", .collection, "Folder", 0, false, ""⟩

/-- See `itemF`. -/
def itemD : CloudItem :=
  ⟨"D", 1, "", true, "", "", .document, "Doc", 0, false, "F"⟩

/-- See `itemF`. -/
def itemsFD : List CloudItem := [itemF, itemD]

/-- Filesystem environment where RMAPI_CONFIG points at a non-existent
path while the home-directory credential file exists. -/
def pathEnvFix : PathEnv :=
  ⟨some "/nowhere/override.conf", none, "/home/u",
   fun p => p == "/home/u/.rmapi"⟩

/-! ## Theorems -/

/-- C4: `discover_storage_host` returns the hardcoded default host whenever
the lookup answers a non-success (non-200) HTTP status, or the parsed
response's status field is not "OK", or a network-level error occurs; and
it raises a discovery error if and only if the response was HTTP 200 and
its body failed to parse. -/
theorem claim_C4 (resp : Option (Int × Option ServiceDiscoveryResponse)) :
    (resp = none → discoverStorageHost resp = .ok DEFAULT_STORAGE_HOST) ∧
    (∀ st b, resp = some (st, b) → st ≠ 200 →
      discoverStorageHost resp = .ok DEFAULT_STORAGE_HOST) ∧
    (∀ st d, resp = some (st, some d) → d.status ≠ "OK" →
      discoverStorageHost resp = .ok DEFAULT_STORAGE_HOST) ∧
    ((∃ e, discoverStorageHost resp = .error e) ↔ resp = some (200, none)) := by
  refine ⟨?_, ?_, ?_, ?_⟩
  · rintro rfl
    rfl
  · rintro st b rfl hst
    simp [discoverStorageHost, hst]
  · rintro st d rfl hd
    by_cases hst : st = 200
    · subst hst
      simp [discoverStorageHost, hd]
    · simp [discoverStorageHost, hst]
  · constructor
    · rintro ⟨e, he⟩
      match resp with
      | none => simp [discoverStorageHost] at he
      | some (st, parsed) =>
        by_cases hst : st = 200
        · subst hst
          match parsed with
          | none => rfl
          | some d =>
            by_cases hd : d.status = "OK" <;> simp [discoverStorageHost, hd] at he
        · simp [discoverStorageHost, hst] at he
    · rintro rfl
      exact ⟨.discoveryErr, rfl⟩

/-- Witness for C4 at concrete inputs: a 500 answer falls back to the
default host, and a 200 answer with an unparseable body raises. -/
theorem claim_C4_witness :
    discoverStorageHost (some (500, none)) = .ok DEFAULT_STORAGE_HOST ∧
    ∃ e, discoverStorageHost (some (200, none)) = .error e :=
  ⟨(claim_C4 (some (500, none))).2.1 500 none rfl (by decide),
   (claim_C4 (some (200, none))).2.2.2.mpr rfl⟩

/-- C8: resolving the root path "/" or the empty path "" never yields an
item: the pure resolver returns `none` on every item set for both, and the
operation (which refreshes the listing first) never returns an item for
them either. -/
theorem claim_C8 :
    (∀ items : List CloudItem,
      findItemByPath items "/" = none ∧ findItemByPath items "" = none) ∧
    (∀ env s x,
      (findItemByPathOp env "/" s).1 ≠ .ok (some x) ∧
      (findItemByPathOp env "" s).1 ≠ .ok (some x)) := by
  have hpure : ∀ items : List CloudItem,
      findItemByPath items "/" = none ∧ findItemByPath items "" = none := by
    intro items
    exact ⟨rfl, rfl⟩
  refine ⟨hpure, ?_⟩
  intro env s x
  constructor
  · show (findItemByPathOp env "/" s).1 ≠ .ok (some x)
    unfold findItemByPathOp
    match h : listItems env false false s with
    | (.error e, s1, r) => simp
    | (.ok items, s1, r) => simp [(hpure items).1]
  · show (findItemByPathOp env "" s).1 ≠ .ok (some x)
    unfold findItemByPathOp
    match h : listItems env false false s with
    | (.error e, s1, r) => simp
    | (.ok items, s1, r) => simp [(hpure items).2]

/-- C6 counterexample: with RMAPI_CONFIG set to a path that does not exist
while the home-directory file exists, the code returns the RMAPI_CONFIG
path, not the home-directory file the claimed "first of these that exists
wins" order would select. -/
theorem claim_C6_counterexample :
    pathEnvFix.rmapiConfigVar = some "/nowhere/override.conf" ∧
    pathEnvFix.pathExists "/nowhere/override.conf" = false ∧
    pathEnvFix.pathExists (homeConfigPath pathEnvFix) = true ∧
    getDefaultConfigPath pathEnvFix = "/nowhere/override.conf" ∧
    getDefaultConfigPath pathEnvFix ≠ homeConfigPath pathEnvFix := by
  refine ⟨rfl, rfl, rfl, rfl, ?_⟩
  decide

/-- C6 amended: a set, non-empty RMAPI_CONFIG value is returned
unconditionally, without an existence check; only when it is unset (or
empty) does the resolution continue with the home-directory file if it
exists, then the XDG file if it exists, and the home-directory location as
the fallback write target when neither exists. -/
theorem claim_C6_amended (e : PathEnv) :
    (∀ v, e.rmapiConfigVar = some v → v ≠ "" → getDefaultConfigPath e = v) ∧
    (e.rmapiConfigVar.getD "" = "" →
      (e.pathExists (homeConfigPath e) = true →
        getDefaultConfigPath e = homeConfigPath e) ∧
      (e.pathExists (homeConfigPath e) = false →
        e.pathExists (xdgConfigPath e) = true →
        getDefaultConfigPath e = xdgConfigPath e) ∧
      (e.pathExists (homeConfigPath e) = false →
        e.pathExists (xdgConfigPath e) = false →
        getDefaultConfigPath e = homeConfigPath e)) := by
  constructor
  · intro v hv hne
    simp [getDefaultConfigPath, hv, hne]
  · intro hunset
    refine ⟨?_, ?_, ?_⟩
    · intro hhome
      simp [getDefaultConfigPath, hunset, hhome]
    · intro hhome hxdg
      simp [getDefaultConfigPath, hunset, hhome, hxdg]
    · intro hhome hxdg
      simp [getDefaultConfigPath, hunset, hhome, hxdg]

/-- Witness for C6 amended at the concrete fixture: the set RMAPI_CONFIG
value wins even though it does not exist. -/
theorem claim_C6_amended_witness :
    getDefaultConfigPath pathEnvFix = "/nowhere/override.conf" :=
  (claim_C6_amended pathEnvFix).1 "/nowhere/override.conf" rfl (by decide)

/-- Witness for C8 at a concrete item set. -/
theorem claim_C8_witness :
    findItemByPath [itemA] "/" = none ∧ findItemByPath [itemA] "" = none :=
  claim_C8.1 [itemA]

/-- Characterization of a successful `save_tokens`: the in-memory pair was
present and is now also the file content. -/
lemma saveTokens_ok {s : AuthState} {u : Unit} {s' : AuthState}
    (h : saveTokens s = (.ok u, s')) :
    ∃ t, s.tokens = some t ∧ s' = ⟨some t, some t⟩ := by
  unfold saveTokens at h
  split at h
  · simp at h
  next t ht =>
    simp only [Prod.mk.injEq] at h
    refine ⟨t, ht, ?_⟩
    obtain ⟨-, h2⟩ := h
    rw [← h2]
    cases s
    simp_all

/-- Characterization of a successful `refresh_user_token`: exactly one
refresh request was issued, the disk is untouched, and the in-memory pair
keeps its device token with the new user token installed. -/
lemma refreshUserToken_ok {env : AuthEnv} {s : AuthState} {ut : String}
    {s' : AuthState} {tr : List Request}
    (h : refreshUserToken env s = (.ok ut, s', tr)) :
    tr = [.tokenRefresh] ∧ s'.disk = s.disk ∧
      ∃ t, s.tokens = some t ∧ s'.tokens = some ⟨t.deviceToken, ut⟩ := by
  unfold refreshUserToken at h
  split at h
  · simp at h
  next t ht =>
    split at h
    · simp at h
    · split at h
      · simp at h
      next status body =>
        split at h
        · simp at h
        · split at h
          · simp at h
          · simp only [Prod.mk.injEq, Except.ok.injEq] at h
            obtain ⟨rfl, h2, rfl⟩ := h
            rw [← h2]
            exact ⟨rfl, rfl, t, ht, rfl⟩

/-- Characterization of a successful post-load phase: the returned pair is
both in memory and on disk, one refresh request was issued. -/
lemma ensureAuthenticatedCore_ok {env : AuthEnv} {s1 : AuthState}
    {t : AuthTokens} {s' : AuthState} {tr : List Request}
    (h : ensureAuthenticatedCore env s1 = (.ok t, s', tr)) :
    s' = ⟨some t, some t⟩ ∧ tr = [.tokenRefresh] := by
  unfold ensureAuthenticatedCore at h
  split at h
  · simp at h
  · split at h
    next e s2 reqs heq => simp at h
    next ut s2 reqs heq =>
      split at h
      next e s3 heq3 => simp at h
      next u s3 heq3 =>
        split at h
        · simp at h
        next t4 ht4 =>
          simp only [Prod.mk.injEq, Except.ok.injEq] at h
          obtain ⟨rfl, rfl, rfl⟩ := h
          obtain ⟨rfl, -, -⟩ := refreshUserToken_ok heq
          obtain ⟨t5, ht5, hs3⟩ := saveTokens_ok heq3
          subst hs3
          simp only at ht4
          obtain rfl : t5 = t4 := by injection ht4
          exact ⟨rfl, rfl⟩

/-- Characterization of a successful `ensure_authenticated`: exactly one
refresh request was issued and the returned pair is both in memory and on
disk afterwards. -/
lemma ensureAuthenticated_ok {env : AuthEnv} {s : AuthState} {t : AuthTokens}
    {s' : AuthState} {tr : List Request}
    (h : ensureAuthenticated env s = (.ok t, s', tr)) :
    s' = ⟨some t, some t⟩ ∧ tr = [.tokenRefresh] :=
  ensureAuthenticatedCore_ok h

/-- C7 counterexample: a successful `refresh_user_token` leaves the
on-disk credential file untouched (still holding the old pair), contrary
to the claim that every successful refresh overwrites it with the new
pair. -/
theorem claim_C7_counterexample :
    refreshUserToken authEnvFix authStateFix =
      (.ok "user-new",
       ⟨some ⟨"device-1", "user-new"⟩, some ⟨"device-1", "user-old"⟩⟩,
       [.tokenRefresh]) ∧
    (⟨"device-1", "user-old"⟩ : AuthTokens) ≠ ⟨"device-1", "user-new"⟩ := by
  constructor
  · rfl
  · decide

/-- C7 amended: `refresh_user_token` itself never writes the disk (the
file content is unchanged on every successful refresh); the on-disk
overwrite happens in `ensure_authenticated`, whose every successful run
persists the refreshed pair. -/
theorem claim_C7_amended (env : AuthEnv) (s : AuthState) :
    (∀ ut s' tr, refreshUserToken env s = (.ok ut, s', tr) → s'.disk = s.disk) ∧
    (∀ t s' tr, ensureAuthenticated env s = (.ok t, s', tr) → s'.disk = some t) := by
  constructor
  · intro ut s' tr h
    exact (refreshUserToken_ok h).2.1
  · intro t s' tr h
    rw [(ensureAuthenticated_ok h).1]

/-- Witness for C7 amended at the concrete fixture: the refresh keeps the
old file content, and `ensure_authenticated` persists the new pair. -/
theorem claim_C7_amended_witness :
    (⟨some ⟨"device-1", "user-new"⟩, some ⟨"device-1", "user-old"⟩⟩
        : AuthState).disk = authStateFix.disk ∧
    (⟨some ⟨"device-1", "user-new"⟩, some ⟨"device-1", "user-new"⟩⟩
        : AuthState).disk = some ⟨"device-1", "user-new"⟩ :=
  ⟨(claim_C7_amended authEnvFix authStateFix).1 "user-new"
      ⟨some ⟨"device-1", "user-new"⟩, some ⟨"device-1", "user-old"⟩⟩
      [.tokenRefresh] rfl,
   (claim_C7_amended authEnvFix authStateFix).2 ⟨"device-1", "user-new"⟩
      ⟨some ⟨"device-1", "user-new"⟩, some ⟨"device-1", "user-new"⟩⟩
      [.tokenRefresh] rfl⟩

/-- The host-and-auth prologue ignores and preserves the item cache: its
outcome, trace, and the other state components are the same whatever the
cache holds, and the cache comes through unchanged. -/
lemma hostAuthStep_cache (env : CloudEnv) (a : AuthState) (host : Option String) :
    ∃ res a' host' tr,
      ∀ c', hostAuthStep env ⟨a, host, c'⟩ = (res, ⟨a', host', c'⟩, tr) := by
  cases host with
  | none =>
    cases hd : discoverStorageHost env.discoveryResp with
    | error e =>
      exact ⟨.error e, a, none, [.discovery], fun c' => by
        simp [hostAuthStep, storageHostStep, hd]⟩
    | ok h =>
      rcases hE : ensureAuthenticated env.authEnv a with ⟨r0, a2, reqs⟩
      cases r0 with
      | error e =>
        exact ⟨.error e, a2, some h, [.discovery] ++ reqs, fun c' => by
          simp [hostAuthStep, storageHostStep, getAuthHeaders, hd, hE]⟩
      | ok t =>
        exact ⟨.ok (h, t.userToken), a2, some h, [.discovery] ++ reqs, fun c' => by
          simp [hostAuthStep, storageHostStep, getAuthHeaders, hd, hE]⟩
  | some h =>
    rcases hE : ensureAuthenticated env.authEnv a with ⟨r0, a2, reqs⟩
    cases r0 with
    | error e =>
      exact ⟨.error e, a2, some h, reqs, fun c' => by
        simp [hostAuthStep, storageHostStep, getAuthHeaders, hE]⟩
    | ok t =>
      exact ⟨.ok (h, t.userToken), a2, some h, reqs, fun c' => by
        simp [hostAuthStep, storageHostStep, getAuthHeaders, hE]⟩

/-- C9 counterexample: with a backend answering an empty listing, the
resulting cache depends on what the cache held beforehand — a previously
populated cache survives unchanged instead of being replaced by the (empty)
freshly fetched set — refuting "the resulting cache contents are identical
regardless of whether the cache was populated beforehand". -/
theorem claim_C9_counterexample :
    (listItems envEmptyList false false cloudStateFix).1 = .ok [] ∧
    (listItems envEmptyList false false cloudStateCachedFix).1 = .ok [] ∧
    (listItems envEmptyList false false cloudStateFix).2.1.itemsCache = none ∧
    (listItems envEmptyList false false cloudStateCachedFix).2.1.itemsCache
      = some [itemA] ∧
    some [itemA] ≠ (none : Option (List CloudItem)) := by
  refine ⟨rfl, rfl, rfl, rfl, ?_⟩
  decide

/-- C9 amended: `list_items` ignores the `refresh` argument entirely and
never reads the item cache (same call result whatever the cache holds); on
success with a non-empty fetched set the whole cache is replaced by that
set, but on success with an empty fetched set the call returns `[]` and
leaves the cache exactly as it was. -/
theorem claim_C9_amended (env : CloudEnv) (wb r1 r2 : Bool) (s : CloudState)
    (c : Option (List CloudItem)) :
    listItems env wb r1 s = listItems env wb r2 s ∧
    (listItems env wb r1 { s with itemsCache := c }).1 = (listItems env wb r1 s).1 ∧
    (∀ items, (listItems env wb r1 s).1 = .ok items →
      (items = [] → (listItems env wb r1 s).2.1.itemsCache = s.itemsCache) ∧
      (items ≠ [] → (listItems env wb r1 s).2.1.itemsCache = some items)) := by
  obtain ⟨a, host, c0⟩ := s
  obtain ⟨res, a', host', tr, hstep⟩ := hostAuthStep_cache env a host
  refine ⟨rfl, ?_, ?_⟩
  · show (listItems env wb r1 ⟨a, host, c⟩).1 = (listItems env wb r1 ⟨a, host, c0⟩).1
    simp only [listItems, hstep c, hstep c0]
    cases res with
    | error e => rfl
    | ok p =>
      cases hL : env.listResp with
      | none => rfl
      | some pr =>
        obtain ⟨st, items⟩ := pr
        by_cases hst : st = 200
        · subst hst
          by_cases hi : items = [] <;> simp [hi]
        · simp [hst]
  · intro items hok
    simp only [listItems, hstep c0] at hok ⊢
    cases res with
    | error e => simp at hok
    | ok p =>
      cases hL : env.listResp with
      | none => rw [hL] at hok; simp at hok
      | some pr =>
        obtain ⟨st, fetched⟩ := pr
        rw [hL] at hok
        dsimp only at hok ⊢
        by_cases hst : st = 200
        · subst hst
          by_cases hi : fetched = []
          · subst hi
            simp only [reduceIte] at hok ⊢
            simp at hok
            subst hok
            exact ⟨fun _ => rfl, fun hne => absurd rfl hne⟩
          · simp only [hi, reduceIte] at hok ⊢
            simp at hok
            subst hok
            refine ⟨fun he => absurd he hi, fun _ => rfl⟩
        · simp [hst] at hok

/-- Witness for C9 amended at a concrete input: a non-empty fetch replaces
the cache with the fetched set. -/
theorem claim_C9_amended_witness :
    (listItems envOneItemList false false cloudStateFix).2.1.itemsCache
      = some [itemA] :=
  ((claim_C9_amended envOneItemList false false false cloudStateFix none).2.2
      [itemA] rfl).2 (by decide)

/-- C1 counterexample: in the non-blocking mode, uploading a missing file
from a fresh client raises FileNotFoundError only after two HTTP requests
(service discovery and session refresh) have already been performed,
refuting "zero HTTP requests are performed before the error is raised" for
that mode. -/
theorem claim_C1_counterexample :
    (uploadDocumentAsync envMissingFile "/tmp/missing.pdf" none ""
        cloudStateFreshFix).1 = .error .fileNotFound ∧
    (uploadDocumentAsync envMissingFile "/tmp/missing.pdf" none ""
        cloudStateFreshFix).2.2 = [.discovery, .tokenRefresh] ∧
    ([Request.discovery, .tokenRefresh] : List Request) ≠ [] := by
  refine ⟨rfl, rfl, ?_⟩
  decide

/-- C1 amended: in the blocking mode `upload_document` raises
FileNotFoundError for a missing file before any HTTP request (state
untouched, empty request trace); in the non-blocking mode
`upload_document_async` still raises FileNotFoundError, but only after
performing service discovery (when the host is not yet cached) and the
session refresh. -/
theorem claim_C1_amended (env : CloudEnv) (fp : String) (nm : Option String)
    (pid : String) (s : CloudState) (hmiss : env.fileExists = false) :
    uploadDocument env fp nm pid s = (.error .fileNotFound, s, []) ∧
    (∀ h, s.storageHost = none → discoverStorageHost env.discoveryResp = .ok h →
      ∀ t a' rs, ensureAuthenticated env.authEnv s.auth = (.ok t, a', rs) →
        (uploadDocumentAsync env fp nm pid s).1 = .error .fileNotFound ∧
        (uploadDocumentAsync env fp nm pid s).2.2 = [.discovery, .tokenRefresh]) := by
  constructor
  · simp [uploadDocument, hmiss]
  · intro h hhost hd t a' rs hE
    obtain ⟨-, hrs⟩ := ensureAuthenticated_ok hE
    subst hrs
    obtain ⟨a0, host0, c0⟩ := s
    simp only at hhost hE
    subst hhost
    constructor <;>
      simp [uploadDocumentAsync, hostAuthStep, storageHostStep, getAuthHeaders,
        hd, hE, hmiss]

/-- Witness for C1 amended at the concrete fixture. -/
theorem claim_C1_amended_witness :
    uploadDocument envMissingFile "/tmp/missing.pdf" none "" cloudStateFreshFix
      = (.error .fileNotFound, cloudStateFreshFix, []) ∧
    (uploadDocumentAsync envMissingFile "/tmp/missing.pdf" none ""
        cloudStateFreshFix).2.2 = [.discovery, .tokenRefresh] :=
  ⟨(claim_C1_amended envMissingFile "/tmp/missing.pdf" none "" cloudStateFreshFix
      rfl).1,
   ((claim_C1_amended envMissingFile "/tmp/missing.pdf" none "" cloudStateFreshFix
      rfl).2 "disc.example" rfl rfl ⟨"device-1", "user-new"⟩
      ⟨some ⟨"device-1", "user-new"⟩, some ⟨"device-1", "user-new"⟩⟩
      [.tokenRefresh] rfl).2⟩

/-- The auth-header helper never touches the item cache. -/
lemma getAuthHeaders_cache (env : AuthEnv) (s : CloudState) :
    (getAuthHeaders env s).2.1.itemsCache = s.itemsCache := by
  rcases hE : ensureAuthenticated env s.auth with ⟨r, a2, reqs⟩
  cases r <;> simp [getAuthHeaders, hE]

/-- The modelled `get_item` never touches the item cache. -/
lemma getItem_cache (env : CloudEnv) (itemId : String) (wb : Bool) (s : CloudState) :
    (getItem env itemId wb s).2.1.itemsCache = s.itemsCache := by
  obtain ⟨a, host, c0⟩ := s
  obtain ⟨res, a', host', tr, hstep⟩ := hostAuthStep_cache env a host
  simp only [getItem, hstep c0]
  cases res with
  | error e => rfl
  | ok p =>
    dsimp only
    cases env.getResp with
    | none => rfl
    | some pr =>
      obtain ⟨st, data⟩ := pr
      dsimp only
      repeat' split
      all_goals rfl

/-- The cache after `create_folder` is cleared exactly when the call
succeeded, and untouched otherwise. -/
lemma createFolder_cache (env : CloudEnv) (name pid : String) (s : CloudState) :
    (createFolder env name pid s).2.1.itemsCache =
      match (createFolder env name pid s).1 with
      | .ok _ => none
      | .error _ => s.itemsCache := by
  obtain ⟨a, host, c0⟩ := s
  obtain ⟨res, a', host', tr, hstep⟩ := hostAuthStep_cache env a host
  simp only [createFolder, hstep c0]
  cases res with
  | error e => rfl
  | ok p =>
    dsimp only
    cases env.uploadResp with
    | none => rfl
    | some pr =>
      obtain ⟨st, rs⟩ := pr
      dsimp only
      split
      · rfl
      · split
        · rfl
        · split
          · rfl
          · rcases hA : getAuthHeaders env.authEnv ⟨a', host', c0⟩ with ⟨res2, s3, r3⟩
            have hc3 : s3.itemsCache = c0 := by
              have := getAuthHeaders_cache env.authEnv ⟨a', host', c0⟩
              rw [hA] at this
              exact this
            cases res2 with
            | error e => simpa using hc3
            | ok tok =>
              dsimp only
              cases env.updateResp with
              | none => simpa using hc3
              | some pr2 =>
                obtain ⟨st2, us⟩ := pr2
                dsimp only
                split
                · simpa using hc3
                · split
                  · simpa using hc3
                  · rfl

/-- The cache after `upload_document` is cleared exactly when the call
succeeded, and untouched otherwise. -/
lemma uploadDocument_cache (env : CloudEnv) (fp : String) (nm : Option String)
    (pid : String) (s : CloudState) :
    (uploadDocument env fp nm pid s).2.1.itemsCache =
      match (uploadDocument env fp nm pid s).1 with
      | .ok _ => none
      | .error _ => s.itemsCache := by
  obtain ⟨a, host, c0⟩ := s
  obtain ⟨res, a', host', tr, hstep⟩ := hostAuthStep_cache env a host
  simp only [uploadDocument]
  split
  · rfl
  · simp only [hstep c0]
    cases res with
    | error e => rfl
    | ok p =>
      dsimp only
      cases env.uploadResp with
      | none => rfl
      | some pr =>
        obtain ⟨st, rs⟩ := pr
        dsimp only
        split
        · rfl
        · split
          · rfl
          · split
            · rfl
            · split
              · rfl
              · cases env.blobPutStatus with
                | none => rfl
                | some bst =>
                  dsimp only
                  split
                  · rfl
                  · rcases hA : getAuthHeaders env.authEnv ⟨a', host', c0⟩ with
                      ⟨res2, s3, r3⟩
                    have hc3 : s3.itemsCache = c0 := by
                      have := getAuthHeaders_cache env.authEnv ⟨a', host', c0⟩
                      rw [hA] at this
                      exact this
                    cases res2 with
                    | error e => simpa using hc3
                    | ok tok =>
                      dsimp only
                      cases env.updateResp with
                      | none => simpa using hc3
                      | some pr2 =>
                        obtain ⟨st2, us⟩ := pr2
                        dsimp only
                        split
                        · simpa using hc3
                        · split
                          · simpa using hc3
                          · rfl

/-- The cache after `move_item` is cleared exactly when the call succeeded,
and untouched otherwise. -/
lemma moveItem_cache (env : CloudEnv) (itemId pid : String) (nn : Option String)
    (s : CloudState) :
    (moveItem env itemId pid nn s).2.1.itemsCache =
      match (moveItem env itemId pid nn s).1 with
      | .ok _ => none
      | .error _ => s.itemsCache := by
  rcases hG : getItem env itemId false s with ⟨resG, s1, r1⟩
  have hc1 : s1.itemsCache = s.itemsCache := by
    have := getItem_cache env itemId false s
    rw [hG] at this
    exact this
  simp only [moveItem, hG]
  cases resG with
  | error e => simpa using hc1
  | ok item =>
    obtain ⟨a1, host1, c1⟩ := s1
    obtain ⟨res, a', host', tr, hstep⟩ := hostAuthStep_cache env a1 host1
    simp only at hc1
    simp only [hstep c1]
    cases res with
    | error e => simpa using hc1
    | ok p =>
      dsimp only
      cases env.updateResp with
      | none => simpa using hc1
      | some pr =>
        obtain ⟨st, us⟩ := pr
        dsimp only
        split
        · simpa using hc1
        · split
          · simpa using hc1
          · split
            · simpa using hc1
            · rfl

/-- The cache after `delete_item` is cleared exactly when the call
succeeded, and untouched otherwise. -/
lemma deleteItem_cache (env : CloudEnv) (itemId : String) (s : CloudState) :
    (deleteItem env itemId s).2.1.itemsCache =
      match (deleteItem env itemId s).1 with
      | .ok _ => none
      | .error _ => s.itemsCache := by
  rcases hG : getItem env itemId false s with ⟨resG, s1, r1⟩
  have hc1 : s1.itemsCache = s.itemsCache := by
    have := getItem_cache env itemId false s
    rw [hG] at this
    exact this
  simp only [deleteItem, hG]
  cases resG with
  | error e => simpa using hc1
  | ok item =>
    obtain ⟨a1, host1, c1⟩ := s1
    obtain ⟨res, a', host', tr, hstep⟩ := hostAuthStep_cache env a1 host1
    simp only at hc1
    simp only [hstep c1]
    cases res with
    | error e => simpa using hc1
    | ok p =>
      dsimp only
      cases env.deleteResp with
      | none => simpa using hc1
      | some pr =>
        obtain ⟨st, ds⟩ := pr
        dsimp only
        split
        · simpa using hc1
        · split
          · simpa using hc1
          · split
            · simpa using hc1
            · rfl

/-- C3 counterexample: a failed `create_folder` (reservation rejected with
HTTP 500) leaves a previously populated cache fully intact, refuting the
claim that the cache is cleared whether the call succeeds or fails. -/
theorem claim_C3_counterexample :
    (createFolder envCreateFail "F" "" cloudStateCachedFix).1 = .error .createErr ∧
    (createFolder envCreateFail "F" "" cloudStateCachedFix).2.1.itemsCache
      = some [itemA] ∧
    some [itemA] ≠ (none : Option (List CloudItem)) := by
  refine ⟨rfl, rfl, ?_⟩
  decide

/-- C3 amended: each of the four mutating operations clears the item cache
in full (sets it to None) when it completes successfully; when it fails,
the cache is left exactly as it was — never partially updated. -/
theorem claim_C3_amended (env : CloudEnv) (s : CloudState) :
    (∀ name pid,
      (∀ v, (createFolder env name pid s).1 = .ok v →
        (createFolder env name pid s).2.1.itemsCache = none) ∧
      (∀ e, (createFolder env name pid s).1 = .error e →
        (createFolder env name pid s).2.1.itemsCache = s.itemsCache)) ∧
    (∀ fp nm pid,
      (∀ v, (uploadDocument env fp nm pid s).1 = .ok v →
        (uploadDocument env fp nm pid s).2.1.itemsCache = none) ∧
      (∀ e, (uploadDocument env fp nm pid s).1 = .error e →
        (uploadDocument env fp nm pid s).2.1.itemsCache = s.itemsCache)) ∧
    (∀ itemId pid nn,
      (∀ v, (moveItem env itemId pid nn s).1 = .ok v →
        (moveItem env itemId pid nn s).2.1.itemsCache = none) ∧
      (∀ e, (moveItem env itemId pid nn s).1 = .error e →
        (moveItem env itemId pid nn s).2.1.itemsCache = s.itemsCache)) ∧
    (∀ itemId,
      (∀ v, (deleteItem env itemId s).1 = .ok v →
        (deleteItem env itemId s).2.1.itemsCache = none) ∧
      (∀ e, (deleteItem env itemId s).1 = .error e →
        (deleteItem env itemId s).2.1.itemsCache = s.itemsCache)) := by
  refine ⟨?_, ?_, ?_, ?_⟩
  · intro name pid
    have hc := createFolder_cache env name pid s
    exact ⟨fun v hv => by rw [hc, hv], fun e he => by rw [hc, he]⟩
  · intro fp nm pid
    have hc := uploadDocument_cache env fp nm pid s
    exact ⟨fun v hv => by rw [hc, hv], fun e he => by rw [hc, he]⟩
  · intro itemId pid nn
    have hc := moveItem_cache env itemId pid nn s
    exact ⟨fun v hv => by rw [hc, hv], fun e he => by rw [hc, he]⟩
  · intro itemId
    have hc := deleteItem_cache env itemId s
    exact ⟨fun v hv => by rw [hc, hv], fun e he => by rw [hc, he]⟩

/-- Witness for C3 amended at concrete inputs: a successful delete clears
the cache; a failed create leaves it untouched. -/
theorem claim_C3_amended_witness :
    (deleteItem envDeleteOk "id-B" cloudStateCachedFix).2.1.itemsCache = none ∧
    (createFolder envCreateFail "F" "" cloudStateCachedFix).2.1.itemsCache
      = cloudStateCachedFix.itemsCache :=
  ⟨((claim_C3_amended envDeleteOk cloudStateCachedFix).2.2.2 "id-B").1 true rfl,
   ((claim_C3_amended envCreateFail cloudStateCachedFix).1 "F" "").2 .createErr rfl⟩

/-- A successful `get_item` issued its GET request (with the `?doc=` query
for the requested id). -/
lemma getItem_ok_trace {env : CloudEnv} {itemId : String} {wb : Bool}
    {s : CloudState} {i : CloudItem} {s1 : CloudState} {r1 : List Request}
    (h : getItem env itemId wb s = (.ok i, s1, r1)) :
    Request.listDocs wb (some itemId) ∈ r1 := by
  obtain ⟨a, host, c0⟩ := s
  obtain ⟨res, a', host', tr, hstep⟩ := hostAuthStep_cache env a host
  simp only [getItem, hstep c0] at h
  cases res with
  | error e => simp at h
  | ok p =>
    dsimp only at h
    cases hR : env.getResp with
    | none => rw [hR] at h; simp at h
    | some pr =>
      obtain ⟨st, data⟩ := pr
      rw [hR] at h
      dsimp only at h
      split at h
      · simp at h
      · split at h
        · simp at h
        · match data, h with
          | it :: rest, h =>
            simp only [Prod.mk.injEq, Except.ok.injEq] at h
            obtain ⟨-, -, rfl⟩ := h
            simp

/-- A successful `get_item` pins down the backend's answer: the response
was HTTP 200 and the returned item was the head of the result array. -/
lemma getItem_ok_env {env : CloudEnv} {itemId : String} {wb : Bool}
    {s : CloudState} {i : CloudItem} {s1 : CloudState} {r1 : List Request}
    (h : getItem env itemId wb s = (.ok i, s1, r1)) :
    ∃ rest, env.getResp = some (200, i :: rest) := by
  obtain ⟨a, host, c0⟩ := s
  obtain ⟨res, a', host', tr, hstep⟩ := hostAuthStep_cache env a host
  simp only [getItem, hstep c0] at h
  cases res with
  | error e => simp at h
  | ok p =>
    dsimp only at h
    cases hR : env.getResp with
    | none => rw [hR] at h; simp at h
    | some pr =>
      obtain ⟨st, data⟩ := pr
      rw [hR] at h
      dsimp only at h
      split at h
      · simp at h
      next h404 =>
        split at h
        next hst => simp at h
        next hst =>
          rw [not_not] at hst
          subst hst
          match data, h with
          | it :: rest, h =>
            simp only [Prod.mk.injEq, Except.ok.injEq] at h
            obtain ⟨rfl, -, -⟩ := h
            exact ⟨rest, rfl⟩

/-- What a `move_item` call that proceeds past authentication submits: the
request trace ends with an `UpdateStatusItem` carrying the fetched item's
version plus one, the requested parent, the supplied name (falling back to
the current one), the item's type and bookmarked flag, and the GET that
fetched the item precedes it in the trace. -/
lemma moveItem_submits {env : CloudEnv} {s : CloudState} {itemId pid : String}
    {nn : Option String} {i r : CloudItem}
    (hget : (getItem env itemId false s).1 = .ok i)
    (hok : (moveItem env itemId pid nn s).1 = .ok r) :
    ∃ pre, (moveItem env itemId pid nn s).2.2 =
        pre ++ [.updateStatus ⟨itemId, i.version + 1, pid, nn.getD i.visibleName,
          i.itemType, env.now, i.bookmarked⟩] ∧
      Request.listDocs false (some itemId) ∈ pre := by
  rcases hG : getItem env itemId false s with ⟨resG, s1, r1⟩
  rw [hG] at hget
  simp only at hget
  subst hget
  have hmem : Request.listDocs false (some itemId) ∈ r1 := getItem_ok_trace hG
  simp only [moveItem, hG] at hok ⊢
  obtain ⟨a1, host1, c1⟩ := s1
  obtain ⟨res, a', host', tr, hstep⟩ := hostAuthStep_cache env a1 host1
  simp only [hstep c1] at hok ⊢
  cases res with
  | error e => simp at hok
  | ok p =>
    dsimp only at hok ⊢
    refine ⟨r1 ++ tr, ?_, by simp [hmem]⟩
    cases hU : env.updateResp with
    | none => simp
    | some pr =>
      obtain ⟨st, us⟩ := pr
      dsimp only
      repeat' split
      all_goals simp

/-- C5: for every environment and state in which fetching the item
succeeds and the move goes through, `move_item` first fetches the item
(the GET precedes the submission in the trace) and then submits metadata
with version exactly one above the pre-move version, the requested parent,
the supplied name or else the unchanged current name, and the item's
current bookmarked flag. -/
theorem claim_C5 (env : CloudEnv) (s : CloudState) (itemId pid : String)
    (nn : Option String) (i r : CloudItem)
    (hget : (getItem env itemId false s).1 = .ok i)
    (hok : (moveItem env itemId pid nn s).1 = .ok r) :
    ∃ pre, (moveItem env itemId pid nn s).2.2 =
        pre ++ [.updateStatus ⟨itemId, i.version + 1, pid, nn.getD i.visibleName,
          i.itemType, env.now, i.bookmarked⟩] ∧
      Request.listDocs false (some itemId) ∈ pre :=
  moveItem_submits hget hok

/-- Witness for C5 at the concrete fixture: moving bookmarked `itemB`
(version 3) into folder "G" submits version 4, parent "G", the unchanged
name and the preserved bookmark. -/
theorem claim_C5_witness :
    ∃ pre, (moveItem envMoveOk "id-B" "G" none cloudStateFix).2.2 =
        pre ++ [.updateStatus ⟨"id-B", 4, "G", "Doc B", .document,
          "2026-01-01T00:00:00.000Z", true⟩] ∧
      Request.listDocs false (some "id-B") ∈ pre :=
  claim_C5 envMoveOk cloudStateFix "id-B" "G" none itemB itemBMoved rfl rfl

/-- A successful `move_item` implies its initial fetch succeeded. -/
lemma moveItem_ok_getItem {env : CloudEnv} {s : CloudState} {itemId pid : String}
    {nn : Option String} {r : CloudItem} {sM : CloudState} {rM : List Request}
    (h : moveItem env itemId pid nn s = (.ok r, sM, rM)) :
    ∃ i1, (getItem env itemId false s).1 = .ok i1 := by
  rcases hG : getItem env itemId false s with ⟨resG, s1, r1⟩
  simp only [moveItem, hG] at h
  cases resG with
  | error e => simp at h
  | ok i1 => exact ⟨i1, rfl⟩

/-- C10: with the Python defaults (`new_parent_id=ROOT_FOLDER`,
`new_name=None`), `move_item` submits the empty root id as the new parent
— re-parenting the item to the root rather than keeping its current parent
— while `rename_item` fetches the item and passes its current parent
explicitly, so its submission carries the unchanged parent. -/
theorem claim_C10 (env : CloudEnv) (s : CloudState) (itemId : String) (i : CloudItem)
    (hget : (getItem env itemId false s).1 = .ok i) :
    (∀ r, (moveItemDefault env itemId s).1 = .ok r →
      ∃ pre, (moveItemDefault env itemId s).2.2 =
        pre ++ [.updateStatus ⟨itemId, i.version + 1, ROOT_FOLDER, i.visibleName,
          i.itemType, env.now, i.bookmarked⟩]) ∧
    (∀ nn r, (renameItem env itemId nn s).1 = .ok r →
      ∃ pre, (renameItem env itemId nn s).2.2 =
        pre ++ [.updateStatus ⟨itemId, i.version + 1, i.parent, nn,
          i.itemType, env.now, i.bookmarked⟩]) := by
  constructor
  · intro r hok
    obtain ⟨pre, hpre, -⟩ := moveItem_submits hget
      (show (moveItem env itemId ROOT_FOLDER none s).1 = .ok r from hok)
    exact ⟨pre, hpre⟩
  · intro nn r hok
    rcases hG : getItem env itemId false s with ⟨resG, s1, r1⟩
    rw [hG] at hget
    simp only at hget
    subst hget
    obtain ⟨rest, hEnv⟩ := getItem_ok_env hG
    simp only [renameItem, hG] at hok ⊢
    rcases hM : moveItem env itemId i.parent (some nn) s1 with ⟨resM, sM, rM⟩
    rw [hM] at hok
    simp only at hok ⊢
    subst hok
    obtain ⟨i1, hG1⟩ := moveItem_ok_getItem hM
    rcases hG1' : getItem env itemId false s1 with ⟨resG1, s2, r2⟩
    rw [hG1'] at hG1
    simp only at hG1
    subst hG1
    obtain ⟨rest1, hEnv1⟩ := getItem_ok_env hG1'
    rw [hEnv] at hEnv1
    simp only [Option.some.injEq, Prod.mk.injEq, List.cons.injEq] at hEnv1
    obtain ⟨-, hi, -⟩ := hEnv1
    subst hi
    have hok' : (moveItem env itemId i.parent (some nn) s1).1 = .ok r := by
      rw [hM]
    have hget' : (getItem env itemId false s1).1 = .ok i := by
      rw [hG1']
    obtain ⟨pre, hpre, -⟩ := moveItem_submits hget' hok'
    rw [hM] at hpre
    simp only at hpre
    refine ⟨r1 ++ pre, ?_⟩
    rw [hpre, List.append_assoc]
    simp [Option.getD]

/-- Witness for C10 at the concrete fixture: the defaulted move submits
parent "" while a rename of the same item submits its current parent "F". -/
theorem claim_C10_witness :
    (∃ pre, (moveItemDefault envMoveOk "id-B" cloudStateFix).2.2 =
      pre ++ [.updateStatus ⟨"id-B", 4, ROOT_FOLDER, "Doc B", .document,
        "2026-01-01T00:00:00.000Z", true⟩]) ∧
    (∃ pre, (renameItem envMoveOk "id-B" "New name" cloudStateFix).2.2 =
      pre ++ [.updateStatus ⟨"id-B", 4, "F", "New name", .document,
        "2026-01-01T00:00:00.000Z", true⟩]) :=
  ⟨(claim_C10 envMoveOk cloudStateFix "id-B" itemB rfl).1 itemBMoved rfl,
   (claim_C10 envMoveOk cloudStateFix "id-B" itemB rfl).2 "New name" itemBMoved rfl⟩

/-! ### C2: the path round-trip -/

/-- A successful cache lookup returns a member of the item set. -/
lemma cacheGet_mem {items : List CloudItem} {k : String} {p : CloudItem}
    (h : cacheGet items k = some p) : p ∈ items := by
  have := List.mem_of_find?_eq_some h
  exact List.mem_reverse.mp this

/-- A successful cache lookup returns an item with the looked-up id. -/
lemma cacheGet_id {items : List CloudItem} {k : String} {p : CloudItem}
    (h : cacheGet items k = some p) : p.id = k := by
  have := List.find?_some h
  simpa using this

/-- Every member of an ancestor chain is a member of the item set. -/
lemma ancChain_mem {items : List CloudItem} {x : CloudItem} {c : List CloudItem}
    (h : AncChain items x c) : ∀ y ∈ c, y ∈ items := by
  induction h with
  | root x hx => intro y hy; cases hy
  | step x p c hne hp hc ih =>
    intro y hy
    rcases List.mem_append.mp hy with hy' | hy'
    · exact ih y hy'
    · rw [List.mem_singleton.mp hy']
      exact cacheGet_mem hp

/-- The cache lookups are deterministic, so an item's ancestor chain is
unique. -/
lemma ancChain_unique {items : List CloudItem} {x : CloudItem}
    {c₁ c₂ : List CloudItem} (h₁ : AncChain items x c₁)
    (h₂ : AncChain items x c₂) : c₁ = c₂ := by
  induction h₁ generalizing c₂ with
  | root x hx =>
    cases h₂ with
    | root _ _ => rfl
    | step _ p c hne hp hc => exact absurd hx hne
  | step x p c hne hp hc ih =>
    cases h₂ with
    | root _ hx => exact absurd hx hne
    | step _ p' c' hne' hp' hc' =>
      rw [hp] at hp'
      obtain rfl : p = p' := by injection hp'
      rw [ih hc']

/-- Every member of an ancestor chain has its own, strictly shorter,
ancestor chain. -/
lemma ancChain_mem_chain {items : List CloudItem} {x : CloudItem}
    {c : List CloudItem} (h : AncChain items x c) :
    ∀ y ∈ c, ∃ d, AncChain items y d ∧ d.length < c.length := by
  induction h with
  | root x hx => intro y hy; cases hy
  | step x p c hne hp hc ih =>
    intro y hy
    rcases List.mem_append.mp hy with hy' | hy'
    · obtain ⟨d, hd, hlen⟩ := ih y hy'
      exact ⟨d, hd, by simpa using Nat.lt_succ_of_lt hlen⟩
    · rw [List.mem_singleton.mp hy']
      exact ⟨c, hc, by simp⟩

/-- No item appears in its own ancestor chain. -/
lemma ancChain_not_mem {items : List CloudItem} {x : CloudItem}
    {c : List CloudItem} (h : AncChain items x c) : x ∉ c := by
  intro hx
  obtain ⟨d, hd, hlen⟩ := ancChain_mem_chain h x hx
  rw [ancChain_unique hd h] at hlen
  exact lt_irrefl _ hlen

/-- An item together with its ancestor chain has no duplicates. -/
lemma ancChain_nodup {items : List CloudItem} {x : CloudItem}
    {c : List CloudItem} (h : AncChain items x c) : (x :: c).Nodup := by
  induction h with
  | root x hx => simp
  | step x p c hne hp hc ih =>
    have hx : x ∉ c ++ [p] := ancChain_not_mem (AncChain.step x p c hne hp hc)
    have hperm : (c ++ [p]).Perm (p :: c) := List.perm_append_singleton p c
    refine List.nodup_cons.mpr ⟨hx, ?_⟩
    exact hperm.nodup_iff.mpr ih

/-- An ancestor chain is shorter than the item set holding it. -/
lemma ancChain_length {items : List CloudItem} {x : CloudItem}
    {c : List CloudItem} (hx : x ∈ items) (h : AncChain items x c) :
    c.length < items.length := by
  have hsub : (x :: c) ⊆ items := by
    intro y hy
    rcases List.mem_cons.mp hy with rfl | hy'
    · exact hx
    · exact ancChain_mem h y hy'
  have := ((ancChain_nodup h).subperm hsub).length_le
  simpa using this

/-- The ancestor-walking loop of `get_item_path` computes the chain's
display names (root first) in front of the accumulator, for any fuel at
least the chain length. -/
lemma getPathLoop_eq {items : List CloudItem} {x : CloudItem}
    {c : List CloudItem} (h : AncChain items x c) :
    ∀ fuel acc, c.length ≤ fuel →
      getPathLoop items fuel x acc = c.map CloudItem.visibleName ++ acc := by
  induction h with
  | root x hx =>
    intro fuel acc hfuel
    cases fuel with
    | zero => rfl
    | succ n => simp [getPathLoop, hx]
  | step x p c hne hp hc ih =>
    intro fuel acc hfuel
    have hne' : items ≠ [] := List.ne_nil_of_mem (cacheGet_mem hp)
    cases fuel with
    | zero => simp at hfuel
    | succ n =>
      have hn : c.length ≤ n := by simpa using hfuel
      simp only [getPathLoop, hne, hne', ne_eq, not_false_iff, and_self, if_true,
        hp, ih n (p.visibleName :: acc) hn]
      simp

/-- Under sibling-name uniqueness, looking up a child of `pid` by the
display name of an item `y` that has parent `pid` finds exactly `y`. -/
lemma find_sibling {items : List CloudItem} {y : CloudItem} {pid : String}
    (hsib : ∀ a ∈ items, ∀ b ∈ items,
      a.parent = b.parent → a.visibleName = b.visibleName → a = b)
    (hy : y ∈ items) (hpar : y.parent = pid) :
    (childrenOf items pid).find? (fun c => c.visibleName == y.visibleName)
      = some y := by
  have hmem : y ∈ childrenOf items pid := by
    simp only [childrenOf, List.mem_filter]
    exact ⟨hy, by simp [hpar]⟩
  have hsome : ((childrenOf items pid).find?
      (fun c => c.visibleName == y.visibleName)).isSome := by
    rw [List.find?_isSome]
    exact ⟨y, hmem, by simp⟩
  obtain ⟨z, hz⟩ := Option.isSome_iff_exists.mp hsome
  have hzname : z.visibleName = y.visibleName := by
    have := List.find?_some hz
    simpa using this
  have hzmem : z ∈ childrenOf items pid := List.mem_of_find?_eq_some hz
  have hzitems : z ∈ items := by
    have := List.mem_filter.mp hzmem
    exact this.1
  have hzpar : z.parent = pid := by
    have := (List.mem_filter.mp hzmem).2
    simpa using this
  have : z = y := hsib z hzitems y hy (by rw [hzpar, hpar]) hzname
  rw [hz, this]

/-- Walking an appended segment list first walks the first part; if that
fails the whole walk fails, and if it reaches `y`, the walk continues
below `y`. -/
lemma walkPath_append (items : List CloudItem) (l₂ : List String) :
    ∀ l₁ pid cur, l₁ ≠ [] →
      walkPath items (l₁ ++ l₂) pid cur =
        match walkPath items l₁ pid cur with
        | none => none
        | some y => walkPath items l₂ y.id (some y) := by
  intro l₁
  induction l₁ with
  | nil => intro pid cur h; exact absurd rfl h
  | cons a t ih =>
    intro pid cur h
    cases ht : t with
    | nil =>
      simp only [walkPath, List.cons_append, List.nil_append]
      cases (childrenOf items pid).find? (fun c => c.visibleName == a) with
      | none => rfl
      | some f => rfl
    | cons b t' =>
      rw [← ht]
      simp only [walkPath, List.cons_append]
      cases (childrenOf items pid).find? (fun c => c.visibleName == a) with
      | none => rfl
      | some f =>
        exact ih f.id (some f) (by rw [ht]; exact List.cons_ne_nil b t')

/-- Walking the display names of an item's full ancestor chain (root
first, the item last) from the root reaches exactly that item. -/
lemma walk_chain {items : List CloudItem} {x : CloudItem} {c : List CloudItem}
    (hsib : ∀ a ∈ items, ∀ b ∈ items,
      a.parent = b.parent → a.visibleName = b.visibleName → a = b)
    (h : AncChain items x c) :
    x ∈ items →
      walkPath items ((c ++ [x]).map CloudItem.visibleName) ROOT_FOLDER none
        = some x := by
  induction h with
  | root x hroot =>
    intro hx
    have hfind := find_sibling hsib hx (show x.parent = ROOT_FOLDER from hroot)
    simp [walkPath, hfind]
  | step x p c hne hp hc ih =>
    intro hx
    have hpmem : p ∈ items := cacheGet_mem hp
    have hIH := ih hpmem
    have hl1 : (c ++ [p]).map CloudItem.visibleName ≠ [] := by simp
    have happ := walkPath_append items ([x].map CloudItem.visibleName)
      ((c ++ [p]).map CloudItem.visibleName) ROOT_FOLDER none hl1
    rw [show ((c ++ [p]) ++ [x]).map CloudItem.visibleName
        = (c ++ [p]).map CloudItem.visibleName ++ [x].map CloudItem.visibleName
      from by simp]
    rw [happ, hIH]
    have hfind := find_sibling hsib hx ((cacheGet_id hp).symm)
    simp [walkPath, hfind]

/-- Unfolding `intercalate` on a one-element list. -/
lemma intercalate_single (a : List Char) : List.intercalate ['/'] [a] = a := by
  simp [List.intercalate]

/-- Unfolding `intercalate` on a list of two or more elements. -/
lemma intercalate_cons₂ (a b : List Char) (l : List (List Char)) :
    List.intercalate ['/'] (a :: b :: l)
      = a ++ ['/'] ++ List.intercalate ['/'] (b :: l) := by
  simp [List.intercalate, List.intersperse_cons_cons]

/-- When every segment is non-empty and slash-free, the joined character
list starts with a non-slash character. -/
lemma inter_head (ps : List (List Char)) (hps : ps ≠ [])
    (hg : ∀ p ∈ ps, p ≠ [] ∧ '/' ∉ p) :
    ∃ ch t, List.intercalate ['/'] ps = ch :: t ∧ ch ≠ '/' := by
  cases ps with
  | nil => exact absurd rfl hps
  | cons p rest =>
    obtain ⟨hne, hns⟩ := hg p (by simp)
    obtain ⟨ch, t, rfl⟩ : ∃ ch t, p = ch :: t := by
      cases p with
      | nil => exact absurd rfl hne
      | cons ch t => exact ⟨ch, t, rfl⟩
    have hch : ch ≠ '/' := by
      intro hc
      refine hns ?_
      rw [hc]
      exact List.mem_cons_self _ _
    cases rest with
    | nil => exact ⟨ch, t, intercalate_single _, hch⟩
    | cons b l =>
      refine ⟨ch, t ++ ['/'] ++ List.intercalate ['/'] (b :: l), ?_, hch⟩
      rw [intercalate_cons₂]
      simp

/-- When every segment is non-empty and slash-free, the joined character
list also ends with a non-slash character. -/
lemma inter_last (ps : List (List Char)) :
    ps ≠ [] → (∀ p ∈ ps, p ≠ [] ∧ '/' ∉ p) →
    ∃ ch t, (List.intercalate ['/'] ps).reverse = ch :: t ∧ ch ≠ '/' := by
  induction ps with
  | nil => intro hps _; exact absurd rfl hps
  | cons p rest ih =>
    intro _ hg
    cases rest with
    | nil =>
      obtain ⟨hne, hns⟩ := hg p (by simp)
      rw [intercalate_single]
      obtain ⟨ch, t, hrev⟩ : ∃ ch t, p.reverse = ch :: t := by
        cases hr : p.reverse with
        | nil =>
          exfalso
          exact hne (by simpa using hr)
        | cons ch t => exact ⟨ch, t, rfl⟩
      have hmem : ch ∈ p := by
        have : ch ∈ p.reverse := by rw [hrev]; simp
        simpa using this
      exact ⟨ch, t, hrev, fun hc => hns (hc ▸ hmem)⟩
    | cons b l =>
      obtain ⟨ch, t, hrev, hch⟩ :=
        ih (by simp) (fun q hq => hg q (List.mem_cons_of_mem p hq))
      rw [intercalate_cons₂]
      refine ⟨ch, t ++ '/' :: p.reverse, ?_, hch⟩
      simp [hrev]

/-- Stripping slashes from a slash-prefixed join of well-formed names
recovers the join, which is itself a non-empty string. -/
lemma strip_join (names : List String) (hns : names ≠ [])
    (hg : ∀ s ∈ names, s.data ≠ [] ∧ '/' ∉ s.data) :
    stripSlashes ("/" ++ joinSlashes names) = joinSlashes names ∧
      joinSlashes names ≠ "" := by
  have hg' : ∀ p ∈ names.map String.data, p ≠ [] ∧ '/' ∉ p := by
    intro p hp
    obtain ⟨s, hs, rfl⟩ := List.mem_map.mp hp
    exact hg s hs
  have hps : names.map String.data ≠ [] := by simpa using hns
  obtain ⟨ch, t, hJ, hch⟩ := inter_head _ hps hg'
  obtain ⟨ch', t', hJr, hch'⟩ := inter_last _ hps hg'
  constructor
  · show stripSlashes ("/" ++ joinSlashes names) = joinSlashes names
    unfold stripSlashes joinSlashes
    congr 1
    have hdata :
        ("/" ++ String.mk (List.intercalate ['/'] (names.map String.data))).data
          = '/' :: List.intercalate ['/'] (names.map String.data) := rfl
    rw [hdata]
    have hb : (ch == '/') = false := by simp [hch]
    have hb' : (ch' == '/') = false := by simp [hch']
    have h1 : ('/' :: List.intercalate ['/'] (names.map String.data)).dropWhile
        (· == '/') = List.intercalate ['/'] (names.map String.data) := by
      rw [hJ]
      simp [List.dropWhile, hb]
    have h2 : (List.intercalate ['/'] (names.map String.data)).reverse.dropWhile
        (· == '/') = (List.intercalate ['/'] (names.map String.data)).reverse := by
      rw [hJr]
      simp [List.dropWhile, hb']
    rw [h1, h2, List.reverse_reverse]
  · intro hc
    have hdat : List.intercalate ['/'] (names.map String.data) = [] :=
      congrArg String.data hc
    rw [hJ] at hdat
    cases hdat

/-- Rebuilding strings from their character data is the identity. -/
lemma map_mk_data (ns : List String) : (ns.map String.data).map String.mk = ns := by
  induction ns with
  | nil => rfl
  | cons a t ih =>
    show String.mk a.data :: (t.map String.data).map String.mk = a :: t
    rw [ih]

/-- Splitting a join of well-formed names on the slash recovers the
names. -/
lemma split_join (names : List String) (hns : names ≠ [])
    (hg : ∀ s ∈ names, s.data ≠ [] ∧ '/' ∉ s.data) :
    splitSlashes (joinSlashes names) = names := by
  have hps : names.map String.data ≠ [] := by simpa using hns
  have hx : ∀ l ∈ names.map String.data, '/' ∉ l := by
    intro l hl
    obtain ⟨s, hs, rfl⟩ := List.mem_map.mp hl
    exact (hg s hs).2
  unfold splitSlashes joinSlashes
  rw [show (String.mk (List.intercalate ['/'] (names.map String.data))).data
      = List.intercalate ['/'] (names.map String.data) from rfl]
  rw [@List.splitOn_intercalate Char _ _ '/' hx hps]
  exact map_mk_data names

/-- C2 counterexample: a single root item whose display name is empty (so
sibling names are trivially unique, the tree is well formed, and its
ancestor chain is empty) — `get_item_path` yields "/", which
`find_item_by_path` resolves to no item at all, so the round-trip does not
return the item. -/
theorem claim_C2_counterexample :
    (∀ a ∈ [itemEmptyName], ∀ b ∈ [itemEmptyName],
      a.parent = b.parent → a.visibleName = b.visibleName → a = b) ∧
    AncChain [itemEmptyName] itemEmptyName [] ∧
    getItemPath [itemEmptyName] itemEmptyName = "/" ∧
    findItemByPath [itemEmptyName] (getItemPath [itemEmptyName] itemEmptyName)
      = none ∧
    (none : Option CloudItem) ≠ some itemEmptyName := by
  refine ⟨by decide, AncChain.root itemEmptyName rfl, rfl, rfl, by simp⟩

/-- C2 amended: for every item `x` of a well-formed item tree (x is listed,
its parent chain reaches the root) in which no two siblings share a display
name, and in which every display name is non-empty and contains no slash,
resolving the path produced for `x` yields `x` back:
`find_item_by_path (get_item_path x) = some x`. -/
theorem claim_C2_amended (items : List CloudItem) (x : CloudItem)
    (c : List CloudItem) (hx : x ∈ items) (hc : AncChain items x c)
    (hsib : ∀ a ∈ items, ∀ b ∈ items,
      a.parent = b.parent → a.visibleName = b.visibleName → a = b)
    (hname : ∀ a ∈ items, a.visibleName.data ≠ [] ∧ '/' ∉ a.visibleName.data) :
    findItemByPath items (getItemPath items x) = some x := by
  have hns : (c ++ [x]).map CloudItem.visibleName ≠ [] := by simp
  have hg : ∀ s ∈ (c ++ [x]).map CloudItem.visibleName,
      s.data ≠ [] ∧ '/' ∉ s.data := by
    intro s hs
    obtain ⟨y, hy, rfl⟩ := List.mem_map.mp hs
    rcases List.mem_append.mp hy with h | h
    · exact hname y (ancChain_mem hc y h)
    · rw [List.mem_singleton.mp h]
      exact hname x hx
  have hlen : c.length ≤ items.length := le_of_lt (ancChain_length hx hc)
  have hpath : getItemPath items x
      = "/" ++ joinSlashes ((c ++ [x]).map CloudItem.visibleName) := by
    unfold getItemPath
    rw [getPathLoop_eq hc items.length [x.visibleName] hlen]
    congr 1
    simp
  rw [hpath]
  obtain ⟨hstrip, hne⟩ := strip_join _ hns hg
  unfold findItemByPath
  rw [hstrip, if_neg hne, split_join _ hns hg]
  exact walk_chain hsib hc hx

/-- Witness for C2 amended on the spec's own two-item scenario: the
document "Doc" inside the folder "Folder" round-trips through
`get_item_path` and `find_item_by_path`. -/
theorem claim_C2_amended_witness :
    findItemByPath itemsFD (getItemPath itemsFD itemD) = some itemD := by
  have hchain : AncChain itemsFD itemD [itemF] := by
    have h0 : AncChain itemsFD itemD ([] ++ [itemF]) :=
      AncChain.step itemD itemF [] (by decide) (by decide)
        (AncChain.root itemF rfl)
    simpa using h0
  exact claim_C2_amended itemsFD itemD [itemF] (by decide) hchain
    (by decide) (by decide)

end Pyrmapi
